import Mathlib

/-!
Verification of the mode dispatch and recombination engine of
`pycbc/waveform/waveform_modes.py`.

The Python module is shallowly embedded: complex floats become exact
complex rationals (`QC`), Python dictionaries become association lists,
Python exceptions become the `Except` monad over an explicit error type
(`WErr`), and the external solver collaborators (lalsimulation functions)
become explicit function parameters of the adapters, so that theorems can
quantify over every possible solver behaviour.
-/

/-- Complex numbers with rational components.  Models the complex floats
flowing through the Python module; exact arithmetic stands in for IEEE
arithmetic, which is adequate for the algebraic claims verified here. -/
structure QC where
  re : ℚ
  im : ℚ
deriving DecidableEq

namespace QC

theorem ext2 {a b : QC} (h1 : a.re = b.re) (h2 : a.im = b.im) : a = b := by
  cases a; cases b; simp_all

instance : Zero QC := ⟨⟨0, 0⟩⟩
instance : One QC := ⟨⟨1, 0⟩⟩
instance : Add QC := ⟨fun a b => ⟨a.re + b.re, a.im + b.im⟩⟩
instance : Neg QC := ⟨fun a => ⟨-a.re, -a.im⟩⟩
instance : Mul QC := ⟨fun a b => ⟨a.re * b.re - a.im * b.im, a.re * b.im + a.im * b.re⟩⟩

@[simp] theorem zero_re : (0 : QC).re = 0 := rfl
@[simp] theorem zero_im : (0 : QC).im = 0 := rfl
@[simp] theorem one_re : (1 : QC).re = 1 := rfl
@[simp] theorem one_im : (1 : QC).im = 0 := rfl
@[simp] theorem add_re (a b : QC) : (a + b).re = a.re + b.re := rfl
@[simp] theorem add_im (a b : QC) : (a + b).im = a.im + b.im := rfl
@[simp] theorem neg_re (a : QC) : (-a).re = -a.re := rfl
@[simp] theorem neg_im (a : QC) : (-a).im = -a.im := rfl
@[simp] theorem mul_re (a b : QC) : (a * b).re = a.re * b.re - a.im * b.im := rfl
@[simp] theorem mul_im (a b : QC) : (a * b).im = a.re * b.im + a.im * b.re := rfl

instance : CommRing QC where
  add_assoc a b c := by apply ext2 <;> simp <;> ring
  zero_add a := by apply ext2 <;> simp
  add_zero a := by apply ext2 <;> simp
  add_comm a b := by apply ext2 <;> simp <;> ring
  left_distrib a b c := by apply ext2 <;> simp <;> ring
  right_distrib a b c := by apply ext2 <;> simp <;> ring
  zero_mul a := by apply ext2 <;> simp
  mul_zero a := by apply ext2 <;> simp
  mul_assoc a b c := by apply ext2 <;> simp <;> ring
  one_mul a := by apply ext2 <;> simp
  mul_one a := by apply ext2 <;> simp
  mul_comm a b := by apply ext2 <;> simp <;> ring
  neg_add_cancel a := by apply ext2 <;> simp
  nsmul := nsmulRec
  zsmul := zsmulRec

/-- The imaginary unit (Python `1j`). -/
def iu : QC := ⟨0, 1⟩

/-- Python's `0.5` as a complex scalar. -/
def half : QC := ⟨1/2, 0⟩

/-- Python's `0.5j` as a complex scalar. -/
def halfI : QC := ⟨0, 1/2⟩

end QC

/-- A mode index: a pair (l, m) of integers. -/
abbrev WaveMode := ℤ × ℤ

/-- Complex time series, modelling `pycbc.types.TimeSeries` with complex
data: the sample data together with the sample spacing `delta_t` and the
start time (`epoch`). -/
structure CTseries where
  data : List QC
  delta_t : ℚ
  epoch : ℚ
deriving DecidableEq

/-- Real-valued time series, as produced by `TimeSeries.real()` /
`TimeSeries.imag()`. -/
structure RTseries where
  data : List ℚ
  delta_t : ℚ
  epoch : ℚ
deriving DecidableEq

/-- Elementwise real part of a complex time series (`TimeSeries.real()`). -/
def CTseries.realS (h : CTseries) : RTseries :=
  ⟨h.data.map QC.re, h.delta_t, h.epoch⟩

/-- Elementwise imaginary part of a complex time series (`TimeSeries.imag()`). -/
def CTseries.imagS (h : CTseries) : RTseries :=
  ⟨h.data.map QC.im, h.delta_t, h.epoch⟩

/-- Complex frequency series, modelling `pycbc.types.FrequencySeries`:
sample data, frequency spacing `delta_f`, and the epoch. -/
structure CFseries where
  data : List QC
  delta_f : ℚ
  epoch : ℚ
deriving DecidableEq

/-- Scalar multiplication of a frequency series (Python `c * series`):
elementwise on the data, spacing and epoch unchanged. -/
def fsMul (c : QC) (h : CFseries) : CFseries :=
  ⟨h.data.map (fun x => c * x), h.delta_f, h.epoch⟩

/-- Parameter values as they appear in the keyword-argument dictionary of
the Python module: numbers, strings, or explicit mode lists. -/
inductive PVal where
  | num (q : ℚ)
  | str (s : String)
  | modes (ms : List (ℤ × ℤ))
deriving DecidableEq

/-- A parameter set: Python's keyword-argument dictionary, modelled as an
association list from parameter name to value (first match wins; a Python
dict never holds duplicate keys). -/
abbrev Params := List (String × PVal)

/-- Dictionary lookup returning an optional value (`params.get(k)`). -/
def Params.get? (p : Params) (k : String) : Option PVal :=
  (p.find? (fun kv => kv.1 = k)).map (fun kv => kv.2)

/-- Python's `k in params` membership test. -/
def Params.hasKey (p : Params) (k : String) : Bool :=
  p.any (fun kv => kv.1 = k)

/-- The error kinds observable from the module, combining the error
taxonomy of the design (MissingParameter, UnsupportedModel,
InvalidModeIndex, ExternalSolverFailure) with the raw Python exceptions
the code actually raises (ValueError with a message, KeyError on a dict
subscript, AttributeError from `getattr`, TypeError from ill-typed
arithmetic) and the untranslated native exceptions escaping the external
solver collaborator (`nativeFailure`). -/
inductive WErr where
  | missingParameter (keys : List String)
  | unsupportedModel (name : String)
  | invalidModeIndex (l m : ℤ)
  | externalSolverFailure (msg : String)
  | valueError (msg : String)
  | keyError (key : String)
  | attributeError (name : String)
  | typeError (key : String)
  | nativeFailure (msg : String)
deriving DecidableEq

/-- Python `params[k]`: the value if present, otherwise a KeyError. -/
def getRaw (p : Params) (k : String) : Except WErr PVal :=
  match p.get? k with
  | some v => Except.ok v
  | none => Except.error (WErr.keyError k)

/-- Python `params[k]` used in a numeric position: KeyError if absent,
TypeError if the value is not a number. -/
def getNum (p : Params) (k : String) : Except WErr ℚ :=
  match p.get? k with
  | some (PVal.num q) => Except.ok q
  | some _ => Except.error (WErr.typeError k)
  | none => Except.error (WErr.keyError k)

/-- Python `params[k]` used in a string position: KeyError if absent,
AttributeError-style failure if the value is not a string. -/
def getStr (p : Params) (k : String) : Except WErr String :=
  match p.get? k with
  | some (PVal.str s) => Except.ok s
  | some _ => Except.error (WErr.typeError k)
  | none => Except.error (WErr.keyError k)

/-- Python's `str.startswith`, via character lists. -/
def listIsInit : List Char → List Char → Bool
  | [], _ => true
  | _ :: _, [] => false
  | a :: as, b :: bs => a = b && listIsInit as bs

/-- Python `s.startswith(pre)`. -/
def pyStartsWith (s pre : String) : Bool :=
  listIsInit pre.data s.data

/-- Insertion into a Python dict modelled as an association list: an
existing key has its value replaced in place, a new key is appended
(Python dicts preserve insertion order). -/
def dictInsert {α β : Type} [DecidableEq α] (d : List (α × β)) (k : α) (v : β) :
    List (α × β) :=
  if d.any (fun kv => kv.1 = k) then
    d.map (fun kv => if kv.1 = k then (k, v) else kv)
  else d ++ [(k, v)]

/-! ## External collaborators

The functions below are collaborators imported by the module
(`lal`, `lalsimulation`, `pycbc.pnutils`, and helpers from
`pycbc.waveform.waveform` / `pycbc.waveform.parameters`).  Their code is
not part of this repository, so they are modelled from the spec. -/

/-- Modelled from the spec: the numerical constant `lal.MSUN_SI` (one
solar mass in kilograms).  Its exact value is irrelevant to every claim
verified here; a fixed rational stands in for the physical constant. -/
def MSUN_SI : ℚ := 198892 * 10 ^ 25

/-- Modelled from the spec: the numerical constant `lal.PC_SI` (one
parsec in meters).  Exact value irrelevant to the claims. -/
def PC_SI : ℚ := 30857 * 10 ^ 12

/-- Modelled from the spec: `pycbc.pnutils.solar_mass_to_kg`, the
physical unit conversion collaborator of section 6 (solar masses to
kilograms). -/
def solar_mass_to_kg (m : ℚ) : ℚ := m * MSUN_SI

/-- Modelled from the spec: `pycbc.pnutils.megaparsecs_to_meters`, the
physical unit conversion collaborator of section 6 (megaparsecs to
meters). -/
def megaparsecs_to_meters (d : ℚ) : ℚ := d * (10 ^ 6) * PC_SI

/-- Modelled from the spec: the LAL dictionary of extra waveform options
built by the external helper `_check_lal_pars`.  Its contents never
influence the claims verified here, so it is collapsed to a unit value. -/
abbrev LALDict := Unit

/-- Modelled from the spec: `pycbc.waveform.waveform._check_lal_pars`,
the external helper that packages optional parameters into a LAL
dictionary before a solver call. -/
def _check_lal_pars (_ : Params) : LALDict := ()

/-- Modelled from the spec (section 4.1): the external evaluator
`lal.SpinWeightedSphericalHarmonic`.  The spec states that it fails with
an InvalidModeIndex error exactly when the mode index is invalid
(negative l, or absolute m exceeding l) and otherwise returns the complex
harmonic value.  The numerical value for valid indices is supplied by the
external collaborator and is abstracted as the function argument `yval`
(taking inclination, azimuth, spin weight, l, m). -/
def SpinWeightedSphericalHarmonic (yval : ℚ → ℚ → ℤ → ℤ → ℤ → QC)
    (theta phi : ℚ) (s l m : ℤ) : Except WErr QC :=
  if l < 0 ∨ l < |m| then Except.error (WErr.invalidModeIndex l m)
  else Except.ok (yval theta phi s l m)

/-- Modelled from the spec (section 6): the required-parameter name list
`pycbc.waveform.parameters.td_required` supplied to the required-parameter
checker for the time domain: time step, the two component masses, spin
components appropriate to the model (the aligned components), lower
frequency bound, reference frequency, distance, and the approximant
name. -/
def td_required : List String :=
  ["approximant", "mass1", "mass2", "spin1z", "spin2z",
   "delta_t", "f_lower", "f_ref", "distance"]

/-- Modelled from the spec (section 6): the frequency-domain
required-parameter name list `pycbc.waveform.parameters.fd_required`; the
spec states the frequency domain requires the time-domain list plus a
frequency step and a coalescence phase. -/
def fd_required : List String :=
  td_required ++ ["delta_f", "coa_phase"]

/-- Modelled from the spec (section 4.4 / 6): the required names absent
from a parameter mapping, as determined by the external
required-parameter checker `pycbc.waveform.waveform.check_args`. -/
def missing_of (params : Params) (required : List String) : List String :=
  required.filter (fun r => !(params.hasKey r))

/-- Modelled from the spec (section 4.4 / 6): the check performed by the
external required-parameter checker, raising a MissingParameter error
naming the missing keys when any are absent. -/
def check_args (params : Params) (required : List String) : Except WErr Unit :=
  let missing := missing_of params required
  if missing.isEmpty then Except.ok () else
    Except.error (WErr.missingParameter missing)

/-- Modelled from the spec: the set of attribute names of the external
`lalsimulation` module that this repository relies on.  The module is an
external collaborator; the names listed are exactly the approximant
constants the source itself references (the table in
`get_lalsimulation_approximant` and the `getattr` call in
`get_nrsur_modes`). -/
def lalsimulation_attr_names : List String :=
  ["EOBNRv2", "EOBNRv2HM", "IMRPhenomTPHM", "NRSur7dq2", "NRSur7dq4",
   "NRHybSur3dq8", "pSEOBNRv4HM_PA", "SEOBNRv4HM_PA", "SEOBNRv4P",
   "SEOBNRv4PHM", "SpinTaylorT1", "SpinTaylorT4", "SpinTaylorT5",
   "TaylorT1", "TaylorT2", "TaylorT3", "TaylorT4"]

/-- Modelled from the spec: Python's `getattr(lalsimulation, name)`.
Returns the approximant constant (modelled as the index in the attribute
table) or fails with an AttributeError for an unknown name. -/
def lalsimulation_getattr (name : String) : Except WErr ℕ :=
  match lalsimulation_attr_names.indexOf? name with
  | some i => Except.ok i
  | none => Except.error (WErr.attributeError name)

/-! ## Source embeddings

Everything below is translated from
`src/pycbc/waveform/waveform_modes.py`. -/

/-- The loop of `sum_modes` (lines 70-79): the running value `out` starts
as Python `None` and becomes `ylm * hlm` on the first mode, accumulating
`out + ylm * hlm` afterwards.  Evaluating the harmonic can fail for an
invalid mode index. -/
def sum_modes_loop (yval : ℚ → ℚ → ℤ → ℤ → ℤ → QC) (inclination phi : ℚ) :
    Option QC → List ((ℤ × ℤ) × QC) → Except WErr (Option QC)
  | out, [] => Except.ok out
  | out, (lm, hlm) :: rest => do
      let ylm ← SpinWeightedSphericalHarmonic yval inclination phi (-2) lm.1 lm.2
      let out' := match out with
        | none => ylm * hlm
        | some o => o + ylm * hlm
      sum_modes_loop yval inclination phi (some out') rest

/-- Embedding of `sum_modes` (lines 49-79): applies the spin-weight -2
spherical harmonics and sums the modes.  Per the source, the return value
is Python `None` when the mapping is empty; otherwise a complex value
whose real part gives the plus polarization and whose negated imaginary
part gives the cross polarization. -/
def sum_modes (yval : ℚ → ℚ → ℤ → ℤ → ℤ → QC)
    (hlms : List ((ℤ × ℤ) × QC)) (inclination phi : ℚ) :
    Except WErr (Option QC) :=
  sum_modes_loop yval inclination phi none hlms

/-- The spec's exposed recombination interface
`recombine_modes(mode_dictionary, inclination, phase) -> (plus, cross)`:
per the source docstring of `sum_modes`, the real part of the summed
value gives the plus polarization and the negative imaginary part the
cross polarization. -/
def recombine_modes (yval : ℚ → ℚ → ℤ → ℤ → ℤ → QC)
    (hlms : List ((ℤ × ℤ) × QC)) (inclination phi : ℚ) :
    Except WErr (Option (ℚ × ℚ)) :=
  (sum_modes yval hlms inclination phi).map
    (fun o => o.map (fun t => (t.re, -t.im)))

/-- Embedding of `default_modes` (lines 82-107): the literature-defined
default mode list per approximant family, raising a ValueError for any
unrecognized name. -/
def default_modes (approximant : String) : Except WErr (List (ℤ × ℤ)) :=
  if approximant = "IMRPhenomXPHM" ∨ approximant = "IMRPhenomXHM" then
    -- according to arXiv:2004.06503, plus the -m modes
    let ma : List (ℤ × ℤ) := [(2, 2), (2, 1), (3, 3), (3, 2), (4, 4)]
    Except.ok (ma ++ ma.map (fun lm => (lm.1, -lm.2)))
  else if approximant = "IMRPhenomPv3HM" ∨ approximant = "IMRPhenomHM" then
    -- according to arXiv:1911.06050, plus the -m modes
    let ma : List (ℤ × ℤ) := [(2, 2), (2, 1), (3, 3), (3, 2), (4, 4), (4, 3)]
    Except.ok (ma ++ ma.map (fun lm => (lm.1, -lm.2)))
  else if pyStartsWith approximant "NRSur7dq4" then
    -- according to arXiv:1905.09300
    Except.ok (([2, 3, 4] : List ℤ).flatMap
      (fun l => (List.range (2 * l.toNat + 1)).map (fun k => (l, -l + (k : ℤ)))))
  else if pyStartsWith approximant "NRHybSur3dq8" then
    -- according to arXiv:1812.07865
    Except.ok [(2, 0), (2, 1), (2, 2), (3, 0), (3, 1), (3, 2),
               (3, 3), (4, 2), (4, 3), (4, 4), (5, 5)]
  else
    Except.error (WErr.valueError
      ("I don't know what the default modes are for approximant "
        ++ approximant ++ ", sorry!"))

/-- Embedding of `get_glm` (lines 110-131): the magnitude part of the
spin-weight -2 harmonic, obtained as the real part of the external
evaluation at azimuth zero. -/
def get_glm (yval : ℚ → ℚ → ℤ → ℤ → ℤ → QC) (l m : ℤ) (theta : ℚ) :
    Except WErr ℚ :=
  (SpinWeightedSphericalHarmonic yval theta 0 (-2) l m).map QC.re

/-- One record of the singly-linked multi-mode sequence returned by the
packed lalsimulation solvers (`SphHarmTimeSeries`): the `l` and `m`
indices and the complex mode time series. -/
structure PackedNode where
  l : ℤ
  m : ℤ
  mode : CTseries
deriving DecidableEq

/-- The mode dictionary returned by the time-domain adapters:
(l, m) -> (real part series, imaginary part series). -/
abbrev TDOut := List ((ℤ × ℤ) × (RTseries × RTseries))

/-- The walk over the packed linked sequence shared by the three packed
time-domain adapters (`while ret: ... hlms[ret.l, ret.m] = (hlm.real(),
hlm.imag()); ret = ret.next`). -/
def packWalk (nodes : List PackedNode) : TDOut :=
  nodes.foldl
    (fun h n => dictInsert h (n.l, n.m) (n.mode.realS, n.mode.imagS)) []

/-- Argument record of the external solver
`lalsimulation.SimInspiralPrecessingNRSurModes`, in the order of the call
in `get_nrsur_modes`. -/
structure NRSurArgs where
  delta_t : ℚ
  m1SI : ℚ
  m2SI : ℚ
  s1x : ℚ
  s1y : ℚ
  s1z : ℚ
  s2x : ℚ
  s2y : ℚ
  s2z : ℚ
  f_lower : ℚ
  f_ref : ℚ
  distSI : ℚ
  laldict : LALDict
  approx : ℕ

/-- Embedding of `get_nrsur_modes` (lines 134-183).  The external solver
is passed in explicitly; parameter reads follow the evaluation order of
the Python call, with `getattr(lalsimulation, params['approximant'])`
evaluated last among the arguments. -/
def get_nrsur_modes (solver : NRSurArgs → Except WErr (List PackedNode))
    (params : Params) : Except WErr TDOut := do
  let laldict := _check_lal_pars params
  let dt ← getNum params "delta_t"
  let m1 ← getNum params "mass1"
  let m2 ← getNum params "mass2"
  let s1x ← getNum params "spin1x"
  let s1y ← getNum params "spin1y"
  let s1z ← getNum params "spin1z"
  let s2x ← getNum params "spin2x"
  let s2y ← getNum params "spin2y"
  let s2z ← getNum params "spin2z"
  let fl ← getNum params "f_lower"
  let fr ← getNum params "f_ref"
  let dist ← getNum params "distance"
  let apxName ← getStr params "approximant"
  let apx ← lalsimulation_getattr apxName
  let ret ← solver
    ⟨dt, m1 * MSUN_SI, m2 * MSUN_SI, s1x, s1y, s1z, s2x, s2y, s2z,
     fl, fr, dist * (10 ^ 6) * PC_SI, laldict, apx⟩
  Except.ok (packWalk ret)

/-- Argument record of the external solver
`lalsimulation.SimIMRNRHybSur3dq8Modes`, in the order of the call in
`get_nrhybsur_modes`. -/
structure NRHybArgs where
  delta_t : ℚ
  m1SI : ℚ
  m2SI : ℚ
  s1z : ℚ
  s2z : ℚ
  f_lower : ℚ
  f_ref : ℚ
  distSI : ℚ
  laldict : LALDict

/-- Embedding of `get_nrhybsur_modes` (lines 185-229).  Note that the
source never reads the `approximant` parameter in this adapter. -/
def get_nrhybsur_modes (solver : NRHybArgs → Except WErr (List PackedNode))
    (params : Params) : Except WErr TDOut := do
  let laldict := _check_lal_pars params
  let dt ← getNum params "delta_t"
  let m1 ← getNum params "mass1"
  let m2 ← getNum params "mass2"
  let s1z ← getNum params "spin1z"
  let s2z ← getNum params "spin2z"
  let fl ← getNum params "f_lower"
  let fr ← getNum params "f_ref"
  let dist ← getNum params "distance"
  let ret ← solver
    ⟨dt, m1 * MSUN_SI, m2 * MSUN_SI, s1z, s2z, fl, fr,
     dist * (10 ^ 6) * PC_SI, laldict⟩
  Except.ok (packWalk ret)

/-- Embedding of `get_lalsimulation_approximant` (lines 235-255): the
literal dictionary of supported lalsimulation approximant constants; a
name outside the table fails with a KeyError, as a Python dict subscript
does.  The constant is modelled as the index in the attribute table. -/
def get_lalsimulation_approximant (approximant : String) : Except WErr ℕ :=
  if approximant ∈ lalsimulation_attr_names then
    match lalsimulation_attr_names.indexOf? approximant with
    | some i => Except.ok i
    | none => Except.error (WErr.keyError approximant)
  else Except.error (WErr.keyError approximant)

/-- Argument record of the external solver
`lalsimulation.SimInspiralChooseTDModes`, in the order of the call in
`get_lalsimulation_modes`.  The `ell_max` argument is kept as the raw
parameter value, since the source passes it through unchanged. -/
structure ChooseTDArgs where
  coa_phase : ℚ
  delta_t : ℚ
  m1SI : ℚ
  m2SI : ℚ
  s1x : ℚ
  s1y : ℚ
  s1z : ℚ
  s2x : ℚ
  s2y : ℚ
  s2z : ℚ
  f_lower : ℚ
  f_ref : ℚ
  distSI : ℚ
  laldict : LALDict
  ellMax : PVal
  approx : ℕ

/-- Embedding of `get_lalsimulation_modes` (lines 257-317): the generic
packed multi-mode adapter.  `ell_max` defaults to 5 when the parameter is
absent; otherwise the parameter value is passed through unchanged. -/
def get_lalsimulation_modes (solver : ChooseTDArgs → Except WErr (List PackedNode))
    (params : Params) : Except WErr TDOut := do
  let ell_max : PVal :=
    match params.get? "ell_max" with
    | some v => v
    | none => PVal.num 5
  let laldict := _check_lal_pars params
  let cp ← getNum params "coa_phase"
  let dt ← getNum params "delta_t"
  let m1 ← getNum params "mass1"
  let m2 ← getNum params "mass2"
  let s1x ← getNum params "spin1x"
  let s1y ← getNum params "spin1y"
  let s1z ← getNum params "spin1z"
  let s2x ← getNum params "spin2x"
  let s2y ← getNum params "spin2y"
  let s2z ← getNum params "spin2z"
  let fl ← getNum params "f_lower"
  let fr ← getNum params "f_ref"
  let dist ← getNum params "distance"
  let apxName ← getStr params "approximant"
  let apx ← get_lalsimulation_approximant apxName
  let ret ← solver
    ⟨cp, dt, m1 * MSUN_SI, m2 * MSUN_SI, s1x, s1y, s1z, s2x, s2y, s2z,
     fl, fr, dist * (10 ^ 6) * PC_SI, laldict, ell_max, apx⟩
  Except.ok (packWalk ret)

/-- Argument record of the external solver
`lalsimulation.SimIMRPhenomXHMGenerateFDOneMode` apart from the (l, m)
pair, which the adapter passes separately for each call. -/
structure XHMArgs where
  m1kg : ℚ
  m2kg : ℚ
  s1z : ℚ
  s2z : ℚ
  distM : ℚ
  f_lower : ℚ
  f_final : ℚ
  delta_f : ℚ
  coa_phase : ℚ
  f_ref : ℚ
  laldict : LALDict

/-- The per-iteration argument evaluation of the solver call inside
`get_imrphenomxh_modes`, in the source's evaluation order.  The source
re-reads the parameter dictionary on every iteration of the mode loop;
the values do not change between iterations. -/
def xhm_iter_args (params : Params) : Except WErr XHMArgs := do
  let m1 ← getNum params "mass1"
  let m2 ← getNum params "mass2"
  let s1z ← getNum params "spin1z"
  let s2z ← getNum params "spin2z"
  let dist ← getNum params "distance"
  let fl ← getNum params "f_lower"
  let ff ← getNum params "f_final"
  let df ← getNum params "delta_f"
  let cp ← getNum params "coa_phase"
  let fr ← getNum params "f_ref"
  Except.ok
    ⟨solar_mass_to_kg m1, solar_mass_to_kg m2, s1z, s2z,
     megaparsecs_to_meters dist, fl, ff, df, cp, fr, _check_lal_pars params⟩

/-- The plus-strain step of `get_imrphenomxh_modes` (line 347):
`hplm = 0.5 * hlm`. -/
def xhm_hplm (hlm : CFseries) : CFseries := fsMul QC.half hlm

/-- The cross-strain steps of `get_imrphenomxh_modes` (lines 348-350):
`hclm = 0.5j * hlm`, then `hclm *= -1` when `m > 0`. -/
def xhm_hclm (m : ℤ) (hlm : CFseries) : CFseries :=
  if 0 < m then fsMul ⟨-1, 0⟩ (fsMul QC.halfI hlm) else fsMul QC.halfI hlm

/-- The mode dictionary returned by the frequency-domain per-mode-call
adapter: (l, m) -> (plus strain series, cross strain series). -/
abbrev XHMOut := List ((ℤ × ℤ) × (CFseries × CFseries))

/-- The type of the external per-mode solver: one call per (l, m) pair,
returning one complex frequency series. -/
abbrev XHMSolver := ℤ → ℤ → XHMArgs → Except WErr CFseries

/-- The `for (l, m) in mode_array` loop of `get_imrphenomxh_modes`
(lines 331-351): per iteration, the solver-call arguments are re-read
from the parameter dictionary, the external solver is called once for
the single mode, and the plus/cross contributions are inserted into the
accumulating dictionary. -/
def xhm_loop (solver : XHMSolver) (params : Params) :
    XHMOut → List (ℤ × ℤ) → Except WErr XHMOut
  | acc, [] => Except.ok acc
  | acc, lm :: rest => do
      let args ← xhm_iter_args params
      let hlm ← solver lm.1 lm.2 args
      xhm_loop solver params
        (dictInsert acc lm (xhm_hplm hlm, xhm_hclm lm.2 hlm)) rest

/-- The mode-list resolution of `get_imrphenomxh_modes` (lines 324-326):
`params.pop('mode_array', None)`, falling back to the family default when
the caller supplied none. -/
def xhm_resolve_mode_array (params : Params) (approx : String) :
    Except WErr (List (ℤ × ℤ)) :=
  match params.get? "mode_array" with
  | some (PVal.modes ms) => Except.ok ms
  | some _ => Except.error (WErr.typeError "mode_array")
  | none => default_modes approx

/-- The `f_final` default of `get_imrphenomxh_modes` (lines 327-329):
when the key is absent it is set to 0, signalling the solver to pick the
ringdown-based cutoff. -/
def xhm_params_with_f_final (params : Params) : Params :=
  if params.hasKey "f_final" then params
  else params ++ [("f_final", PVal.num 0)]

/-- Embedding of `get_imrphenomxh_modes` (lines 319-352): the
per-mode-call frequency-domain adapter.  Rejects approximants outside the
`IMRPhenomX` family, resolves the mode list (explicit `mode_array` or the
family default), inserts the `f_final = 0` default, then issues one
solver call per mode and applies the polarization convention.  The
source's transient mutation of `params['mode_array']` only feeds the LAL
dictionary, which carries no information in this model. -/
def get_imrphenomxh_modes (solver : XHMSolver) (params : Params) :
    Except WErr XHMOut := do
  let approx ← getStr params "approximant"
  if ¬ pyStartsWith approx "IMRPhenomX" then
    Except.error (WErr.valueError "unsupported approximant")
  else do
    let mode_array ← xhm_resolve_mode_array params approx
    xhm_loop solver (xhm_params_with_f_final params) [] mode_array

/-- The keys of the time-domain registry `_mode_waveform_td`
(lines 355-372). -/
def mode_waveform_td_keys : List String :=
  ["EOBNRv2", "EOBNRv2HM", "IMRPhenomTPHM", "NRSur7dq2", "NRSur7dq4",
   "NRHybSur3dq8", "pSEOBNRv4HM_PA", "SEOBNRv4HM_PA", "SEOBNRv4P",
   "SEOBNRv4PHM", "SpinTaylorT1", "SpinTaylorT4", "SpinTaylorT5",
   "TaylorT1", "TaylorT2", "TaylorT3", "TaylorT4"]

/-- The keys of the frequency-domain registry `_mode_waveform_fd`
(lines 373-374). -/
def mode_waveform_fd_keys : List String := ["IMRPhenomXHM"]

/-- The bundle of external time-domain solvers, one per adapter family. -/
structure TDSolvers where
  nrsur : NRSurArgs → Except WErr (List PackedNode)
  nrhybsur : NRHybArgs → Except WErr (List PackedNode)
  chooseTD : ChooseTDArgs → Except WErr (List PackedNode)

/-- Embedding of `get_fd_waveform_modes` (lines 388-420): validates the
frequency-domain required parameters, then resolves the approximant in
the frequency-domain registry (`IMRPhenomXHM` is its only entry) and
invokes the adapter with the full parameter set.  The external
parameter-extraction collaborator (`props`) has already produced the
merged parameter mapping. -/
def get_fd_waveform_modes (solver : XHMSolver) (params : Params) :
    Except WErr XHMOut := do
  check_args params fd_required
  let apprxV ← getRaw params "approximant"
  match apprxV with
  | PVal.str s =>
      if s = "IMRPhenomXHM" then get_imrphenomxh_modes solver params
      else Except.error (WErr.unsupportedModel s)
  | PVal.num _ => Except.error (WErr.unsupportedModel "<non-string approximant>")
  | PVal.modes _ => Except.error (WErr.unsupportedModel "<non-string approximant>")

/-- Embedding of `get_td_waveform_modes` (lines 428-464): validates the
time-domain required parameters, then resolves the approximant in the
time-domain registry and invokes the registered adapter (the NRSur7dq4
and NRHybSur3dq8 entries map to their dedicated adapters, every other
registered name maps to the generic `get_lalsimulation_modes`). -/
def get_td_waveform_modes (S : TDSolvers) (params : Params) :
    Except WErr TDOut := do
  check_args params td_required
  let apprxV ← getRaw params "approximant"
  match apprxV with
  | PVal.str s =>
      if s = "NRSur7dq4" then get_nrsur_modes S.nrsur params
      else if s = "NRHybSur3dq8" then get_nrhybsur_modes S.nrhybsur params
      else if s ∈ mode_waveform_td_keys then get_lalsimulation_modes S.chooseTD params
      else Except.error (WErr.unsupportedModel s)
  | PVal.num _ => Except.error (WErr.unsupportedModel "<non-string approximant>")
  | PVal.modes _ => Except.error (WErr.unsupportedModel "<non-string approximant>")

/-! ## Helper instances and lemmas -/

instance {ε α : Type} [DecidableEq ε] [DecidableEq α] :
    DecidableEq (Except ε α) := fun x y =>
  match x, y with
  | Except.ok a, Except.ok b =>
      if h : a = b then Decidable.isTrue (by rw [h])
      else Decidable.isFalse (by intro hc; cases hc; exact h rfl)
  | Except.ok _, Except.error _ =>
      Decidable.isFalse (by intro hc; exact Except.noConfusion hc)
  | Except.error _, Except.ok _ =>
      Decidable.isFalse (by intro hc; exact Except.noConfusion hc)
  | Except.error e, Except.error f =>
      if h : e = f then Decidable.isTrue (by rw [h])
      else Decidable.isFalse (by intro hc; cases hc; exact h rfl)

/-- A key is present in a parameter set exactly when its lookup succeeds. -/
theorem Params.hasKey_eq_isSome (p : Params) (k : String) :
    p.hasKey k = (p.get? k).isSome := by
  induction p with
  | nil => rfl
  | cons kv rest ih =>
      by_cases h : kv.1 = k
      · simp [Params.hasKey, Params.get?, List.any_cons, List.find?_cons, h]
      · simp only [Params.hasKey, Params.get?, List.any_cons, List.find?_cons, h]
        simp only [h, decide_False, Bool.false_or, if_false]
        simpa [Params.hasKey, Params.get?] using ih

/-- Two character-list initial segments of the same list are comparable:
one of them is an initial segment of the other. -/
theorem listIsInit_of_common (p q xs : List Char) :
    listIsInit p xs = true → listIsInit q xs = true →
    listIsInit p q = true ∨ listIsInit q p = true := by
  induction p generalizing q xs with
  | nil => intro _ _; left; rfl
  | cons a as ih =>
      intro h1 h2
      cases q with
      | nil => right; rfl
      | cons b bs =>
          cases xs with
          | nil => simp [listIsInit] at h1
          | cons x xs' =>
              simp [listIsInit] at h1 h2 ⊢
              rcases h1 with ⟨rfl, h1'⟩
              rcases h2 with ⟨rfl, h2'⟩
              rcases ih bs xs' h1' h2' with h | h
              · left; exact ⟨rfl, h⟩
              · right; exact ⟨rfl, h⟩

/-- Membership after a Python-dict insertion: the entry is either an old
one or exactly the inserted pair. -/
theorem dictInsert_mem {α β : Type} [DecidableEq α] (d : List (α × β))
    (k : α) (v : β) (k' : α) (v' : β) :
    (k', v') ∈ dictInsert d k v → (k', v') ∈ d ∨ (k' = k ∧ v' = v) := by
  intro hmem
  unfold dictInsert at hmem
  by_cases hc : d.any (fun kv => kv.1 = k)
  · rw [if_pos hc] at hmem
    rcases List.mem_map.mp hmem with ⟨kv, hkv, heq⟩
    by_cases hk : kv.1 = k
    · rw [if_pos hk] at heq
      right
      exact ⟨(Prod.mk.injEq _ _ _ _ ▸ heq.symm).1.symm ▸ rfl,
             (Prod.mk.injEq _ _ _ _ ▸ heq.symm).2.symm ▸ rfl⟩
    · rw [if_neg hk] at heq
      left; exact heq ▸ hkv
  · rw [if_neg hc] at hmem
    rcases List.mem_append.mp hmem with h | h
    · left; exact h
    · right
      rcases List.mem_singleton.mp h with heq
      exact ⟨congrArg Prod.fst heq, congrArg Prod.snd heq⟩

/-- Composing two elementwise scalar multiplications of a frequency
series multiplies the scalars. -/
theorem fsMul_fsMul (a b : QC) (h : CFseries) :
    fsMul a (fsMul b h) = fsMul (a * b) h := by
  unfold fsMul
  congr 1
  rw [List.map_map]
  apply List.map_congr_left
  intro x _
  simp only [Function.comp_apply]
  exact (mul_assoc a b x).symm

/-! ## Claim theorems -/

/-- C1: for every approximant name, `default_modes` returns exactly the
literature table of its family: for IMRPhenomXPHM and IMRPhenomXHM the
five base pairs followed by the same pairs with m negated; for
IMRPhenomPv3HM and IMRPhenomHM the six base pairs followed by their
negated-m pairs; for names starting with NRSur7dq4 all (l, m) with l in
2..4 and m from -l to l; for names starting with NRHybSur3dq8 exactly the
fixed eleven-pair list; and for every other name it raises rather than
returning a list. -/
theorem C1_default_modes_literature_tables :
    (∀ a : String, a = "IMRPhenomXPHM" ∨ a = "IMRPhenomXHM" →
      default_modes a = Except.ok
        [(2, 2), (2, 1), (3, 3), (3, 2), (4, 4),
         (2, -2), (2, -1), (3, -3), (3, -2), (4, -4)])
  ∧ (∀ a : String, a = "IMRPhenomPv3HM" ∨ a = "IMRPhenomHM" →
      default_modes a = Except.ok
        [(2, 2), (2, 1), (3, 3), (3, 2), (4, 4), (4, 3),
         (2, -2), (2, -1), (3, -3), (3, -2), (4, -4), (4, -3)])
  ∧ (∀ a : String, pyStartsWith a "NRSur7dq4" = true →
      ∃ ms, default_modes a = Except.ok ms ∧
        ∀ l m : ℤ, ((l, m) ∈ ms ↔ ((l = 2 ∨ l = 3 ∨ l = 4) ∧ -l ≤ m ∧ m ≤ l)))
  ∧ (∀ a : String, pyStartsWith a "NRHybSur3dq8" = true →
      default_modes a = Except.ok
        [(2, 0), (2, 1), (2, 2), (3, 0), (3, 1), (3, 2),
         (3, 3), (4, 2), (4, 3), (4, 4), (5, 5)])
  ∧ (∀ a : String,
      a ≠ "IMRPhenomXPHM" → a ≠ "IMRPhenomXHM" →
      a ≠ "IMRPhenomPv3HM" → a ≠ "IMRPhenomHM" →
      pyStartsWith a "NRSur7dq4" = false →
      pyStartsWith a "NRHybSur3dq8" = false →
      default_modes a = Except.error (WErr.valueError
        ("I don't know what the default modes are for approximant "
          ++ a ++ ", sorry!"))) := by
  refine ⟨?_, ?_, ?_, ?_, ?_⟩
  · rintro a (rfl | rfl) <;> decide
  · rintro a (rfl | rfl) <;> decide
  · intro a h
    have h1 : ¬(a = "IMRPhenomXPHM" ∨ a = "IMRPhenomXHM") := by
      rintro (rfl | rfl) <;> exact absurd h (by decide)
    have h2 : ¬(a = "IMRPhenomPv3HM" ∨ a = "IMRPhenomHM") := by
      rintro (rfl | rfl) <;> exact absurd h (by decide)
    unfold default_modes
    rw [if_neg h1, if_neg h2, if_pos h]
    refine ⟨_, rfl, ?_⟩
    intro l m
    have hlist : (([2, 3, 4] : List ℤ).flatMap
        (fun l => (List.range (2 * l.toNat + 1)).map (fun k => (l, -l + (k : ℤ)))))
        = [((2 : ℤ), (-2 : ℤ)), (2, -1), (2, 0), (2, 1), (2, 2),
           (3, -3), (3, -2), (3, -1), (3, 0), (3, 1), (3, 2), (3, 3),
           (4, -4), (4, -3), (4, -2), (4, -1), (4, 0), (4, 1), (4, 2), (4, 3), (4, 4)] := by
      decide
    rw [hlist]
    constructor
    · intro hm
      fin_cases hm <;> norm_num
    · rintro ⟨hl, hm1, hm2⟩
      rcases hl with rfl | rfl | rfl <;> (interval_cases m <;> decide)
  · intro a h
    have h1 : ¬(a = "IMRPhenomXPHM" ∨ a = "IMRPhenomXHM") := by
      rintro (rfl | rfl) <;> exact absurd h (by decide)
    have h2 : ¬(a = "IMRPhenomPv3HM" ∨ a = "IMRPhenomHM") := by
      rintro (rfl | rfl) <;> exact absurd h (by decide)
    have h3 : ¬(pyStartsWith a "NRSur7dq4" = true) := by
      intro hcon
      rcases listIsInit_of_common _ _ _ hcon h with hcmp | hcmp <;>
        exact absurd hcmp (by decide)
    unfold default_modes
    rw [if_neg h1, if_neg h2, if_neg h3, if_pos h]
  · intro a h1 h2 h3 h4 h5 h6
    unfold default_modes
    rw [if_neg (by rintro (rfl | rfl) <;> simp_all),
        if_neg (by rintro (rfl | rfl) <;> simp_all),
        if_neg (by simp [h5]), if_neg (by simp [h6])]

/-- C1 witness: the theorem applied at one concrete name per family, and
at a registered-but-defaultless name for the error branch. -/
theorem C1_default_modes_witness :
    default_modes "IMRPhenomXHM" = Except.ok
      [(2, 2), (2, 1), (3, 3), (3, 2), (4, 4),
       (2, -2), (2, -1), (3, -3), (3, -2), (4, -4)]
  ∧ default_modes "IMRPhenomHM" = Except.ok
      [(2, 2), (2, 1), (3, 3), (3, 2), (4, 4), (4, 3),
       (2, -2), (2, -1), (3, -3), (3, -2), (4, -4), (4, -3)]
  ∧ (∃ ms, default_modes "NRSur7dq4" = Except.ok ms ∧
      ∀ l m : ℤ, ((l, m) ∈ ms ↔ ((l = 2 ∨ l = 3 ∨ l = 4) ∧ -l ≤ m ∧ m ≤ l)))
  ∧ default_modes "NRHybSur3dq8Opt" = Except.ok
      [(2, 0), (2, 1), (2, 2), (3, 0), (3, 1), (3, 2),
       (3, 3), (4, 2), (4, 3), (4, 4), (5, 5)]
  ∧ default_modes "SEOBNRv4PHM" = Except.error (WErr.valueError
      ("I don't know what the default modes are for approximant "
        ++ "SEOBNRv4PHM" ++ ", sorry!")) :=
  ⟨C1_default_modes_literature_tables.1 "IMRPhenomXHM" (Or.inr rfl),
   C1_default_modes_literature_tables.2.1 "IMRPhenomHM" (Or.inr rfl),
   C1_default_modes_literature_tables.2.2.1 "NRSur7dq4" (by decide),
   C1_default_modes_literature_tables.2.2.2.1 "NRHybSur3dq8Opt" (by decide),
   C1_default_modes_literature_tables.2.2.2.2 "SEOBNRv4PHM"
     (by decide) (by decide) (by decide) (by decide) (by decide) (by decide)⟩

/-- C3 counterexample: recombining an empty mode mapping does not return
a zero-valued pair; the source's `sum_modes` loop never assigns its
accumulator for an empty dictionary and returns Python `None`, so the
result is no value at all rather than (0, 0). -/
theorem C3_counterexample_empty_not_zero :
    recombine_modes (fun _ _ _ _ _ => QC.iu) [] 0 0 = Except.ok none ∧
    (Except.ok none : Except WErr (Option (ℚ × ℚ))) ≠
      Except.ok (some ((0 : ℚ), (0 : ℚ))) :=
  ⟨rfl, by decide⟩

/-- C3 amended: for every inclination and phase, recombining an empty
mode mapping returns Python `None` (no accumulated value), not a
zero-valued pair: both `sum_modes` and the recombination wrapper yield
the empty result. -/
theorem C3_amended_empty_returns_none :
    ∀ (yval : ℚ → ℚ → ℤ → ℤ → ℤ → QC) (theta phi : ℚ),
      sum_modes yval [] theta phi = Except.ok none ∧
      recombine_modes yval [] theta phi = Except.ok none := by
  intro yval theta phi
  exact ⟨rfl, rfl⟩

/-- C7: for every mode index with negative l or absolute m exceeding l,
both the full complex harmonic evaluation and the `get_glm` magnitude
operation fail with an InvalidModeIndex error; for every valid index both
succeed, with no other error condition. -/
theorem C7_harmonic_invalid_mode_index :
    ∀ (yval : ℚ → ℚ → ℤ → ℤ → ℤ → QC) (theta phi : ℚ) (l m : ℤ),
      ((l < 0 ∨ l < |m|) →
        SpinWeightedSphericalHarmonic yval theta phi (-2) l m =
          Except.error (WErr.invalidModeIndex l m) ∧
        get_glm yval l m theta = Except.error (WErr.invalidModeIndex l m))
      ∧ (0 ≤ l → |m| ≤ l →
        SpinWeightedSphericalHarmonic yval theta phi (-2) l m =
          Except.ok (yval theta phi (-2) l m) ∧
        get_glm yval l m theta = Except.ok ((yval theta 0 (-2) l m).re)) := by
  intro yval theta phi l m
  constructor
  · intro hbad
    unfold get_glm SpinWeightedSphericalHarmonic
    simp [if_pos hbad, Except.map]
  · intro hl hm
    have hgood : ¬(l < 0 ∨ l < |m|) := by
      push_neg
      exact ⟨hl, hm⟩
    unfold get_glm SpinWeightedSphericalHarmonic
    simp [if_neg hgood, Except.map]

/-- C7 witness: the theorem applied at the invalid index (-1, 0) and at
the valid index (2, 2). -/
theorem C7_harmonic_witness :
    (SpinWeightedSphericalHarmonic (fun _ _ _ _ _ => QC.iu) 0 0 (-2) (-1) 0 =
      Except.error (WErr.invalidModeIndex (-1) 0) ∧
     get_glm (fun _ _ _ _ _ => QC.iu) (-1) 0 0 =
      Except.error (WErr.invalidModeIndex (-1) 0))
  ∧ (SpinWeightedSphericalHarmonic (fun _ _ _ _ _ => QC.iu) 0 0 (-2) 2 2 =
      Except.ok QC.iu ∧
     get_glm (fun _ _ _ _ _ => QC.iu) 2 2 0 = Except.ok (QC.iu.re)) :=
  ⟨(C7_harmonic_invalid_mode_index (fun _ _ _ _ _ => QC.iu) 0 0 (-1) 0).1
     (by decide),
   (C7_harmonic_invalid_mode_index (fun _ _ _ _ _ => QC.iu) 0 0 2 2).2
     (by decide) (by decide)⟩

/-- A stub frequency-domain per-mode solver that records (by failing with
a sentinel) whenever it is invoked. -/
def stubXHMSolver : XHMSolver :=
  fun _ _ _ => Except.error (WErr.nativeFailure "stub solver invoked")

/-- Stub time-domain solvers that record (by failing with a sentinel)
whenever they are invoked. -/
def stubTDSolvers : TDSolvers :=
  ⟨fun _ => Except.error (WErr.nativeFailure "stub solver invoked"),
   fun _ => Except.error (WErr.nativeFailure "stub solver invoked"),
   fun _ => Except.error (WErr.nativeFailure "stub solver invoked")⟩

/-- A complete parameter set (every required key of both domains present)
whose approximant names no registered model. -/
def fullParamsNotAModel : Params :=
  [("approximant", PVal.str "NotAModel"), ("mass1", PVal.num 30),
   ("mass2", PVal.num 20), ("spin1z", PVal.num 0), ("spin2z", PVal.num 0),
   ("delta_t", PVal.num (1/1024)), ("f_lower", PVal.num 20),
   ("f_ref", PVal.num 20), ("distance", PVal.num 100),
   ("delta_f", PVal.num (1/4)), ("coa_phase", PVal.num 0)]

/-- C4 counterexample: a parameter set whose approximant is absent from
the registry but which is missing required parameters does not raise
UnsupportedModel — the required-parameter check runs first, so both entry
points raise MissingParameter instead, refuting the claim as universally
stated over all such parameter sets. -/
theorem C4_counterexample_validation_first :
    get_fd_waveform_modes stubXHMSolver [("approximant", PVal.str "NotAModel")] =
      Except.error (WErr.missingParameter
        ["mass1", "mass2", "spin1z", "spin2z", "delta_t", "f_lower", "f_ref",
         "distance", "delta_f", "coa_phase"])
  ∧ get_td_waveform_modes stubTDSolvers [("approximant", PVal.str "NotAModel")] =
      Except.error (WErr.missingParameter
        ["mass1", "mass2", "spin1z", "spin2z", "delta_t", "f_lower", "f_ref",
         "distance"])
  ∧ WErr.missingParameter ["mass1", "mass2", "spin1z", "spin2z", "delta_t",
       "f_lower", "f_ref", "distance", "delta_f", "coa_phase"] ≠
      WErr.unsupportedModel "NotAModel"
  ∧ WErr.missingParameter ["mass1", "mass2", "spin1z", "spin2z", "delta_t",
       "f_lower", "f_ref", "distance"] ≠ WErr.unsupportedModel "NotAModel" :=
  ⟨by decide, by decide, by decide, by decide⟩

/-- C4 amended: for every parameter set that passes the required-parameter
check and whose approximant value is a string absent from the relevant
registry, the corresponding entry point raises an UnsupportedModel error
naming the model, independently of the solvers (so no adapter or external
solver is invoked); an incomplete parameter set instead raises
MissingParameter first. -/
theorem C4_amended_unsupported_model :
    (∀ (solver : XHMSolver) (params : Params) (name : String),
      check_args params fd_required = Except.ok () →
      params.get? "approximant" = some (PVal.str name) →
      name ∉ mode_waveform_fd_keys →
      get_fd_waveform_modes solver params =
        Except.error (WErr.unsupportedModel name))
  ∧ (∀ (S : TDSolvers) (params : Params) (name : String),
      check_args params td_required = Except.ok () →
      params.get? "approximant" = some (PVal.str name) →
      name ∉ mode_waveform_td_keys →
      get_td_waveform_modes S params =
        Except.error (WErr.unsupportedModel name)) := by
  constructor
  · intro solver params name hchk hget hnot
    have h1 : name ≠ "IMRPhenomXHM" := by
      intro hc; exact hnot (hc ▸ (by decide : "IMRPhenomXHM" ∈ mode_waveform_fd_keys))
    unfold get_fd_waveform_modes
    rw [hchk]
    unfold getRaw
    rw [hget]
    simp only [bind, Except.bind]
    rw [if_neg h1]
  · intro S params name hchk hget hnot
    have h1 : name ≠ "NRSur7dq4" := by
      intro hc; exact hnot (hc ▸ (by decide : "NRSur7dq4" ∈ mode_waveform_td_keys))
    have h2 : name ≠ "NRHybSur3dq8" := by
      intro hc; exact hnot (hc ▸ (by decide : "NRHybSur3dq8" ∈ mode_waveform_td_keys))
    unfold get_td_waveform_modes
    rw [hchk]
    unfold getRaw
    rw [hget]
    simp only [bind, Except.bind]
    rw [if_neg h1, if_neg h2, if_neg hnot]

/-- C4 witness: the amended theorem applied to a complete parameter set
naming the unregistered model NotAModel, with stub solvers. -/
theorem C4_amended_witness :
    get_fd_waveform_modes stubXHMSolver fullParamsNotAModel =
      Except.error (WErr.unsupportedModel "NotAModel")
  ∧ get_td_waveform_modes stubTDSolvers fullParamsNotAModel =
      Except.error (WErr.unsupportedModel "NotAModel") :=
  ⟨C4_amended_unsupported_model.1 stubXHMSolver fullParamsNotAModel "NotAModel"
     (by decide) (by decide) (by decide),
   C4_amended_unsupported_model.2 stubTDSolvers fullParamsNotAModel "NotAModel"
     (by decide) (by decide) (by decide)⟩

/-- C5: for every parameter set missing at least one required parameter
of its domain, the corresponding entry point raises a MissingParameter
error naming exactly the missing keys, and this holds for every possible
solver, so no external solver is ever invoked on such input. -/
theorem C5_missing_parameter_before_solver :
    (∀ (solver : XHMSolver) (params : Params) (r : String),
      r ∈ fd_required → params.hasKey r = false →
      get_fd_waveform_modes solver params =
        Except.error (WErr.missingParameter (missing_of params fd_required)))
  ∧ (∀ (S : TDSolvers) (params : Params) (r : String),
      r ∈ td_required → params.hasKey r = false →
      get_td_waveform_modes S params =
        Except.error (WErr.missingParameter (missing_of params td_required))) := by
  constructor
  · intro solver params r hr hk
    have hmem : r ∈ missing_of params fd_required :=
      List.mem_filter.mpr ⟨hr, by simp [hk]⟩
    have hne : (missing_of params fd_required).isEmpty = false := by
      cases hl : missing_of params fd_required with
      | nil => rw [hl] at hmem; exact absurd hmem (List.not_mem_nil r)
      | cons x xs => rfl
    unfold get_fd_waveform_modes check_args
    rw [if_neg (by simp [hne])]
    rfl
  · intro S params r hr hk
    have hmem : r ∈ missing_of params td_required :=
      List.mem_filter.mpr ⟨hr, by simp [hk]⟩
    have hne : (missing_of params td_required).isEmpty = false := by
      cases hl : missing_of params td_required with
      | nil => rw [hl] at hmem; exact absurd hmem (List.not_mem_nil r)
      | cons x xs => rfl
    unfold get_td_waveform_modes check_args
    rw [if_neg (by simp [hne])]
    rfl

/-- C5 witness: the theorem applied to a parameter set carrying only the
approximant, with the missing-key lists evaluated concretely. -/
theorem C5_missing_parameter_witness :
    get_fd_waveform_modes stubXHMSolver [("approximant", PVal.str "IMRPhenomXHM")] =
      Except.error (WErr.missingParameter
        (missing_of [("approximant", PVal.str "IMRPhenomXHM")] fd_required))
  ∧ get_td_waveform_modes stubTDSolvers [("approximant", PVal.str "NRSur7dq4")] =
      Except.error (WErr.missingParameter
        (missing_of [("approximant", PVal.str "NRSur7dq4")] td_required)) :=
  ⟨C5_missing_parameter_before_solver.1 stubXHMSolver
     [("approximant", PVal.str "IMRPhenomXHM")] "mass1" (by decide) (by decide),
   C5_missing_parameter_before_solver.2 stubTDSolvers
     [("approximant", PVal.str "NRSur7dq4")] "mass1" (by decide) (by decide)⟩

/-- The total prescribed by the spec's recombination contract (section
4.2): the sum over all modes of the spin-weight -2 harmonic at the given
angles times the mode value.  Stated from the spec's words for comparison
with the source's `sum_modes`. -/
def spec_mode_total (yval : ℚ → ℚ → ℤ → ℤ → ℤ → QC) (theta phi : ℚ)
    (hlms : List ((ℤ × ℤ) × QC)) : QC :=
  (hlms.map (fun p => yval theta phi (-2) p.1.1 p.1.2 * p.2)).sum

/-- The `sum_modes` loop, started with an already-assigned accumulator,
adds the spec total of the remaining modes to it. -/
theorem sum_modes_loop_acc (yval : ℚ → ℚ → ℤ → ℤ → ℤ → QC)
    (theta phi : ℚ) :
    ∀ (ms : List ((ℤ × ℤ) × QC)) (acc : QC),
      (∀ p ∈ ms, 0 ≤ p.1.1 ∧ |p.1.2| ≤ p.1.1) →
      sum_modes_loop yval theta phi (some acc) ms =
        Except.ok (some (acc + spec_mode_total yval theta phi ms)) := by
  intro ms
  induction ms with
  | nil =>
      intro acc _
      simp [sum_modes_loop, spec_mode_total]
  | cons p rest ih =>
      intro acc hval
      have hp := hval p (List.mem_cons_self p rest)
      have hgood : ¬(p.1.1 < 0 ∨ p.1.1 < |p.1.2|) := by push_neg; exact hp
      obtain ⟨lm, hlm⟩ := p
      simp only [sum_modes_loop, SpinWeightedSphericalHarmonic,
        if_neg hgood, bind, Except.bind]
      rw [ih _ (fun q hq => hval q (List.mem_cons_of_mem _ hq))]
      simp only [spec_mode_total, List.map_cons, List.sum_cons]
      rw [add_assoc]

/-- C6: for every non-empty mode mapping with physically valid mode
indices and every inclination and phase, `sum_modes` computes exactly the
spec total (the sum over all modes of the spin-weight -2 harmonic times
the mode value), and the recombination exposes the total's real part as
the plus polarization and the negated imaginary part as the cross
polarization. -/
theorem C6_mode_recombination :
    ∀ (yval : ℚ → ℚ → ℤ → ℤ → ℤ → QC) (hlms : List ((ℤ × ℤ) × QC))
      (theta phi : ℚ),
      hlms ≠ [] →
      (∀ p ∈ hlms, 0 ≤ p.1.1 ∧ |p.1.2| ≤ p.1.1) →
      sum_modes yval hlms theta phi =
        Except.ok (some (spec_mode_total yval theta phi hlms)) ∧
      recombine_modes yval hlms theta phi =
        Except.ok (some ((spec_mode_total yval theta phi hlms).re,
                         -((spec_mode_total yval theta phi hlms).im))) := by
  intro yval hlms theta phi hne hval
  obtain ⟨p, rest, rfl⟩ := List.exists_cons_of_ne_nil hne
  have hp := hval p (List.mem_cons_self p rest)
  have hgood : ¬(p.1.1 < 0 ∨ p.1.1 < |p.1.2|) := by push_neg; exact hp
  have hsum : sum_modes yval (p :: rest) theta phi =
      Except.ok (some (spec_mode_total yval theta phi (p :: rest))) := by
    unfold sum_modes
    obtain ⟨lm, hlm⟩ := p
    simp only [sum_modes_loop, SpinWeightedSphericalHarmonic,
      if_neg hgood, bind, Except.bind]
    rw [sum_modes_loop_acc yval theta phi rest _
      (fun q hq => hval q (List.mem_cons_of_mem _ hq))]
    simp [spec_mode_total]
  refine ⟨hsum, ?_⟩
  unfold recombine_modes
  rw [hsum]
  rfl

/-- C6 witness: the theorem applied to a one-mode dictionary with a
concrete harmonic evaluation. -/
theorem C6_mode_recombination_witness :
    sum_modes (fun _ _ _ _ _ => QC.iu) [((2, 2), ⟨2, 3⟩)] 0 0 =
      Except.ok (some (spec_mode_total (fun _ _ _ _ _ => QC.iu) 0 0
        [((2, 2), ⟨2, 3⟩)]))
  ∧ recombine_modes (fun _ _ _ _ _ => QC.iu) [((2, 2), ⟨2, 3⟩)] 0 0 =
      Except.ok (some ((spec_mode_total (fun _ _ _ _ _ => QC.iu) 0 0
        [((2, 2), ⟨2, 3⟩)]).re,
        -((spec_mode_total (fun _ _ _ _ _ => QC.iu) 0 0
        [((2, 2), ⟨2, 3⟩)]).im))) :=
  C6_mode_recombination (fun _ _ _ _ _ => QC.iu) [((2, 2), ⟨2, 3⟩)] 0 0
    (by decide) (by decide)

/-- The cross-strain construction, rewritten as a single scalar multiple:
half the series times the imaginary unit, negated exactly when m is
positive. -/
theorem xhm_hclm_eq (m : ℤ) (h : CFseries) :
    xhm_hclm m h =
      (if 0 < m then fsMul ⟨0, -(1/2)⟩ h else fsMul ⟨0, 1/2⟩ h) := by
  unfold xhm_hclm
  by_cases hm : 0 < m
  · rw [if_pos hm, if_pos hm, fsMul_fsMul,
      show ((⟨-1, 0⟩ : QC) * QC.halfI) = (⟨0, -(1/2)⟩ : QC) by
        apply QC.ext2 <;> simp [QC.halfI]]
  · rw [if_neg hm, if_neg hm]
    rfl

/-- Every entry of a completed `xhm_loop` run is either inherited from
the initial accumulator or built from one successful solver call for its
own (l, m) pair via the plus/cross construction. -/
theorem xhm_loop_mem (solver : XHMSolver) (params : Params) :
    ∀ (ms : List (ℤ × ℤ)) (acc out : XHMOut) (l m : ℤ) (hp hc : CFseries),
      xhm_loop solver params acc ms = Except.ok out →
      ((l, m), (hp, hc)) ∈ out →
      ((l, m), (hp, hc)) ∈ acc ∨
        ∃ args hlm, solver l m args = Except.ok hlm ∧
          hp = xhm_hplm hlm ∧ hc = xhm_hclm m hlm := by
  intro ms
  induction ms with
  | nil =>
      intro acc out l m hp hc hrun hmem
      simp only [xhm_loop] at hrun
      cases hrun
      exact Or.inl hmem
  | cons lm rest ih =>
      intro acc out l m hp hc hrun hmem
      obtain ⟨l0, m0⟩ := lm
      cases hargs : xhm_iter_args params with
      | error e =>
          simp only [xhm_loop, hargs, bind, Except.bind] at hrun
          exact Except.noConfusion hrun
      | ok args =>
          cases hslv : solver l0 m0 args with
          | error e =>
              simp only [xhm_loop, hargs, hslv, bind, Except.bind] at hrun
              exact Except.noConfusion hrun
          | ok hlm =>
              simp only [xhm_loop, hargs, hslv, bind, Except.bind] at hrun
              rcases ih _ out l m hp hc hrun hmem with hin | hex
              · rcases dictInsert_mem _ _ _ _ _ hin with hold | ⟨hk, hv⟩
                · exact Or.inl hold
                · right
                  have hl0 : l = l0 := (Prod.mk.injEq _ _ _ _ ▸ hk).1
                  have hm0 : m = m0 := (Prod.mk.injEq _ _ _ _ ▸ hk).2
                  subst hl0
                  subst hm0
                  exact ⟨args, hlm, hslv,
                    congrArg Prod.fst hv, congrArg Prod.snd hv⟩
              · exact Or.inr hex

/-- C2: every mode entry produced by the per-mode-call IMRPhenomXHM
adapter stores, for the frequency series h returned by the external
solver for that mode, a plus contribution of half of h, and a cross
contribution of half of h times the imaginary unit when m is nonpositive
and its negation when m is positive; in particular the cross construction
for (2, 2) is exactly the negation of the one for (2, -2) on identical
solver output. -/
theorem C2_xhm_polarization_convention :
    (∀ (solver : XHMSolver) (params : Params) (out : XHMOut) (l m : ℤ)
       (hp hc : CFseries),
      get_imrphenomxh_modes solver params = Except.ok out →
      ((l, m), (hp, hc)) ∈ out →
      ∃ args hlm, solver l m args = Except.ok hlm ∧
        hp = fsMul QC.half hlm ∧
        hc = (if 0 < m then fsMul ⟨0, -(1/2)⟩ hlm else fsMul ⟨0, 1/2⟩ hlm))
  ∧ (∀ hlm : CFseries, xhm_hclm 2 hlm = fsMul ⟨-1, 0⟩ (xhm_hclm (-2) hlm)) := by
  constructor
  · intro solver params out l m hp hc hrun hmem
    unfold get_imrphenomxh_modes at hrun
    cases hap : getStr params "approximant" with
    | error e =>
        rw [hap] at hrun
        simp only [bind, Except.bind] at hrun
        exact Except.noConfusion hrun
    | ok approx =>
        rw [hap] at hrun
        simp only [bind, Except.bind] at hrun
        by_cases hsw : pyStartsWith approx "IMRPhenomX" = true
        · rw [if_neg (fun hcon => hcon hsw)] at hrun
          cases hma : xhm_resolve_mode_array params approx with
          | error e =>
              rw [hma] at hrun
              simp only [bind, Except.bind] at hrun
              exact Except.noConfusion hrun
          | ok ms =>
              rw [hma] at hrun
              simp only [bind, Except.bind] at hrun
              rcases xhm_loop_mem solver _ ms [] out l m hp hc hrun hmem with
                hin | ⟨args, hlm, hslv, hhp, hhc⟩
              · exact absurd hin (List.not_mem_nil _)
              · exact ⟨args, hlm, hslv, hhp, hhc.trans (xhm_hclm_eq m hlm)⟩
        · rw [if_pos (by simpa using hsw)] at hrun
          exact Except.noConfusion hrun
  · intro hlm
    unfold xhm_hclm
    rw [if_pos (by norm_num : (0:ℤ) < 2), if_neg (by norm_num : ¬(0:ℤ) < -2)]

/-- A concrete per-mode solver returning a fixed frequency series for
every requested mode. -/
def c2Solver : XHMSolver := fun _ _ _ => Except.ok ⟨[], 1, 0⟩

/-- A concrete parameter set requesting the (2, 2) and (2, -2) modes of
IMRPhenomXHM. -/
def c2Params : Params :=
  [("approximant", PVal.str "IMRPhenomXHM"), ("mass1", PVal.num 30),
   ("mass2", PVal.num 20), ("spin1z", PVal.num 0), ("spin2z", PVal.num 0),
   ("distance", PVal.num 100), ("f_lower", PVal.num 20),
   ("delta_f", PVal.num 1), ("coa_phase", PVal.num 0), ("f_ref", PVal.num 20),
   ("mode_array", PVal.modes [(2, 2), (2, -2)])]

/-- The adapter's output on `c2Solver` and `c2Params`. -/
def c2Out : XHMOut :=
  [((2, 2), (⟨[], 1, 0⟩, ⟨[], 1, 0⟩)), ((2, -2), (⟨[], 1, 0⟩, ⟨[], 1, 0⟩))]

/-- C2 witness: the theorem applied to a concrete run producing the
(2, 2) entry, and the cross-sign identity applied to a concrete series. -/
theorem C2_xhm_polarization_witness :
    (∃ args hlm, c2Solver 2 2 args = Except.ok hlm ∧
      (⟨[], 1, 0⟩ : CFseries) = fsMul QC.half hlm ∧
      (⟨[], 1, 0⟩ : CFseries) =
        (if 0 < (2 : ℤ) then fsMul ⟨0, -(1/2)⟩ hlm else fsMul ⟨0, 1/2⟩ hlm))
  ∧ xhm_hclm 2 ⟨[], 1, 0⟩ = fsMul ⟨-1, 0⟩ (xhm_hclm (-2) ⟨[], 1, 0⟩) :=
  ⟨C2_xhm_polarization_convention.1 c2Solver c2Params c2Out 2 2
     ⟨[], 1, 0⟩ ⟨[], 1, 0⟩ (by decide) (by decide),
   C2_xhm_polarization_convention.2 ⟨[], 1, 0⟩⟩

/-- Binding an Except value against a pure continuation is mapping. -/
theorem except_bind_ok {ε α β : Type} (x : Except ε α) (f : α → β) :
    Except.bind x (fun a => Except.ok (f a)) = Except.map f x := by
  cases x <;> rfl

/-- Parameters for a direct call of the NRSur adapter with an
out-of-family approximant: every numeric parameter the adapter reads is
present, and the approximant is TaylorT1, a registered lalsimulation
model outside the NRSur family. -/
def c8Params : Params :=
  [("approximant", PVal.str "TaylorT1"), ("delta_t", PVal.num 1),
   ("mass1", PVal.num 30), ("mass2", PVal.num 20),
   ("spin1x", PVal.num 0), ("spin1y", PVal.num 0), ("spin1z", PVal.num 0),
   ("spin2x", PVal.num 0), ("spin2y", PVal.num 0), ("spin2z", PVal.num 0),
   ("f_lower", PVal.num 20), ("f_ref", PVal.num 20), ("distance", PVal.num 100)]

/-- A probe solver whose sentinel failure reveals that it was invoked. -/
def c8Probe : NRSurArgs → Except WErr (List PackedNode) :=
  fun _ => Except.error (WErr.nativeFailure "external solver invoked")

/-- C8 counterexample: the NRSur packed adapter performs no family check;
called directly with the out-of-family approximant TaylorT1 (which is a
valid lalsimulation attribute) it invokes the external solver — the probe
solver's sentinel appears in the result instead of any rejection
error. -/
theorem C8_counterexample_nrsur_no_family_check :
    get_nrsur_modes c8Probe c8Params =
      Except.error (WErr.nativeFailure "external solver invoked")
  ∧ pyStartsWith "TaylorT1" "NRSur" = false :=
  ⟨by decide, by decide⟩

/-- C8 amended: the per-mode-call adapter rejects any approximant outside
the IMRPhenomX family before invoking its solver, and the generic packed
adapter rejects (with the table lookup's KeyError) any approximant
outside its table before invoking its solver — for every solver alike;
the NRSur and NRHybSur packed adapters, however, perform no family check
(see the counterexample). -/
theorem C8_amended_family_rejection :
    (∀ (solver : XHMSolver) (params : Params) (name : String),
      params.get? "approximant" = some (PVal.str name) →
      pyStartsWith name "IMRPhenomX" = false →
      get_imrphenomxh_modes solver params =
        Except.error (WErr.valueError "unsupported approximant"))
  ∧ (∀ (solver : ChooseTDArgs → Except WErr (List PackedNode)) (params : Params)
      (name : String) (cp dt m1 m2 s1x s1y s1z s2x s2y s2z fl fr dist : ℚ),
      params.get? "coa_phase" = some (PVal.num cp) →
      params.get? "delta_t" = some (PVal.num dt) →
      params.get? "mass1" = some (PVal.num m1) →
      params.get? "mass2" = some (PVal.num m2) →
      params.get? "spin1x" = some (PVal.num s1x) →
      params.get? "spin1y" = some (PVal.num s1y) →
      params.get? "spin1z" = some (PVal.num s1z) →
      params.get? "spin2x" = some (PVal.num s2x) →
      params.get? "spin2y" = some (PVal.num s2y) →
      params.get? "spin2z" = some (PVal.num s2z) →
      params.get? "f_lower" = some (PVal.num fl) →
      params.get? "f_ref" = some (PVal.num fr) →
      params.get? "distance" = some (PVal.num dist) →
      params.get? "approximant" = some (PVal.str name) →
      name ∉ lalsimulation_attr_names →
      get_lalsimulation_modes solver params =
        Except.error (WErr.keyError name)) := by
  constructor
  · intro solver params name hget hsw
    have hap : getStr params "approximant" = Except.ok name := by
      unfold getStr; rw [hget]
    unfold get_imrphenomxh_modes
    rw [hap]
    simp only [bind, Except.bind]
    rw [if_pos (by simp [hsw])]
  · intro solver params name cp dt m1 m2 s1x s1y s1z s2x s2y s2z fl fr dist
      hcp hdt hm1 hm2 h1x h1y h1z h2x h2y h2z hfl hfr hdist hname hnot
    simp only [get_lalsimulation_modes, getNum, getStr, bind, Except.bind,
      hcp, hdt, hm1, hm2, h1x, h1y, h1z, h2x, h2y, h2z, hfl, hfr, hdist, hname]
    unfold get_lalsimulation_approximant
    rw [if_neg hnot]

/-- C8 witness: the amended theorem applied concretely — the XHM adapter
rejecting TaylorT4 and the generic adapter rejecting NotAModel, both
before any solver call. -/
theorem C8_amended_witness :
    get_imrphenomxh_modes c2Solver
      [("approximant", PVal.str "TaylorT4")] =
      Except.error (WErr.valueError "unsupported approximant")
  ∧ get_lalsimulation_modes
      (fun _ => Except.error (WErr.nativeFailure "external solver invoked"))
      ([("approximant", PVal.str "NotAModel")] ++ c8Params.tail
        ++ [("coa_phase", PVal.num 0)]) =
      Except.error (WErr.keyError "NotAModel") := by
  refine ⟨C8_amended_family_rejection.1 c2Solver _ "TaylorT4" (by decide) (by decide), ?_⟩
  exact C8_amended_family_rejection.2
    (fun _ => Except.error (WErr.nativeFailure "external solver invoked"))
    ([("approximant", PVal.str "NotAModel")] ++ c8Params.tail
      ++ [("coa_phase", PVal.num 0)])
    "NotAModel" 0 1 30 20 0 0 0 0 0 0 20 20 100
    (by decide) (by decide) (by decide) (by decide) (by decide) (by decide)
    (by decide) (by decide) (by decide) (by decide) (by decide) (by decide)
    (by decide) (by decide) (by decide)

/-- Recognizer for the spec's ExternalSolverFailure error kind. -/
def WErr.isExternalSolverFailure : WErr → Bool
  | WErr.externalSolverFailure _ => true
  | _ => false

/-- Parameters for a direct NRSur adapter call on its own family. -/
def c9Params : Params := [("approximant", PVal.str "NRSur7dq4")] ++ c8Params.tail

/-- A solver that fails with a raw native (XLAL) error. -/
def c9BadNRSur : NRSurArgs → Except WErr (List PackedNode) :=
  fun _ => Except.error (WErr.nativeFailure "XLAL native failure")

/-- A per-mode solver that fails with a raw native (XLAL) error. -/
def c9BadXHM : XHMSolver :=
  fun _ _ _ => Except.error (WErr.nativeFailure "XLAL native failure")

/-- C9 counterexample: at both cited external call sites the native
solver failure reaches the caller untranslated — the adapters contain no
wrapping, so the caller observes the raw native error, which is not an
ExternalSolverFailure. -/
theorem C9_counterexample_no_wrapping :
    get_nrsur_modes c9BadNRSur c9Params =
      Except.error (WErr.nativeFailure "XLAL native failure")
  ∧ get_imrphenomxh_modes c9BadXHM c2Params =
      Except.error (WErr.nativeFailure "XLAL native failure")
  ∧ (WErr.nativeFailure "XLAL native failure").isExternalSolverFailure = false :=
  ⟨by decide, by decide, by decide⟩

/-- C9 amended: the adapters perform no translation of solver failures at
all — whatever error the external solver collaborator raises propagates
unchanged to the caller of the adapter (shown for the two cited call
sites, for an arbitrary error value). -/
theorem C9_amended_native_errors_propagate :
    (∀ (e : WErr) (params : Params)
       (dt m1 m2 s1x s1y s1z s2x s2y s2z fl fr dist : ℚ)
       (name : String) (apx : ℕ),
      params.get? "delta_t" = some (PVal.num dt) →
      params.get? "mass1" = some (PVal.num m1) →
      params.get? "mass2" = some (PVal.num m2) →
      params.get? "spin1x" = some (PVal.num s1x) →
      params.get? "spin1y" = some (PVal.num s1y) →
      params.get? "spin1z" = some (PVal.num s1z) →
      params.get? "spin2x" = some (PVal.num s2x) →
      params.get? "spin2y" = some (PVal.num s2y) →
      params.get? "spin2z" = some (PVal.num s2z) →
      params.get? "f_lower" = some (PVal.num fl) →
      params.get? "f_ref" = some (PVal.num fr) →
      params.get? "distance" = some (PVal.num dist) →
      params.get? "approximant" = some (PVal.str name) →
      lalsimulation_getattr name = Except.ok apx →
      get_nrsur_modes (fun _ => Except.error e) params = Except.error e)
  ∧ (∀ (e : WErr) (params : Params) (name : String) (lm : ℤ × ℤ)
       (rest : List (ℤ × ℤ)) (m1 m2 s1z s2z dist fl ff df cp fr : ℚ),
      params.get? "approximant" = some (PVal.str name) →
      pyStartsWith name "IMRPhenomX" = true →
      params.get? "mode_array" = some (PVal.modes (lm :: rest)) →
      params.get? "mass1" = some (PVal.num m1) →
      params.get? "mass2" = some (PVal.num m2) →
      params.get? "spin1z" = some (PVal.num s1z) →
      params.get? "spin2z" = some (PVal.num s2z) →
      params.get? "distance" = some (PVal.num dist) →
      params.get? "f_lower" = some (PVal.num fl) →
      params.get? "f_final" = some (PVal.num ff) →
      params.get? "delta_f" = some (PVal.num df) →
      params.get? "coa_phase" = some (PVal.num cp) →
      params.get? "f_ref" = some (PVal.num fr) →
      get_imrphenomxh_modes (fun _ _ _ => Except.error e) params =
        Except.error e) := by
  constructor
  · intro e params dt m1 m2 s1x s1y s1z s2x s2y s2z fl fr dist name apx
      hdt hm1 hm2 h1x h1y h1z h2x h2y h2z hfl hfr hdist hname hattr
    simp only [get_nrsur_modes, getNum, getStr, bind, Except.bind,
      hdt, hm1, hm2, h1x, h1y, h1z, h2x, h2y, h2z, hfl, hfr, hdist,
      hname, hattr]
  · intro e params name lm rest m1 m2 s1z s2z dist fl ff df cp fr
      hname hsw hma hm1 hm2 h1z h2z hdist hfl hff hdf hcp hfr
    have hap : getStr params "approximant" = Except.ok name := by
      unfold getStr; rw [hname]
    have hpf : xhm_params_with_f_final params = params := by
      unfold xhm_params_with_f_final
      rw [if_pos]
      rw [Params.hasKey_eq_isSome, hff]
      rfl
    have hres : xhm_resolve_mode_array params name = Except.ok (lm :: rest) := by
      unfold xhm_resolve_mode_array; rw [hma]
    have hargs : xhm_iter_args params =
        Except.ok ⟨solar_mass_to_kg m1, solar_mass_to_kg m2, s1z, s2z,
          megaparsecs_to_meters dist, fl, ff, df, cp, fr,
          _check_lal_pars params⟩ := by
      simp only [xhm_iter_args, getNum, bind, Except.bind,
        hm1, hm2, h1z, h2z, hdist, hfl, hff, hdf, hcp, hfr]
    unfold get_imrphenomxh_modes
    rw [hap]
    simp only [bind, Except.bind]
    rw [if_neg (fun hcon => hcon hsw), hres]
    simp only [bind, Except.bind]
    rw [hpf]
    obtain ⟨l0, m0⟩ := lm
    simp only [xhm_loop, hargs, bind, Except.bind]

/-- C9 witness: the amended theorem applied to both adapters with a
concrete native error and concrete parameter sets. -/
theorem C9_amended_witness :
    get_nrsur_modes (fun _ => Except.error (WErr.nativeFailure "XLAL err"))
      c9Params = Except.error (WErr.nativeFailure "XLAL err")
  ∧ get_imrphenomxh_modes
      (fun _ _ _ => Except.error (WErr.nativeFailure "XLAL err"))
      (c2Params ++ [("f_final", PVal.num 0)]) =
      Except.error (WErr.nativeFailure "XLAL err") :=
  ⟨C9_amended_native_errors_propagate.1 (WErr.nativeFailure "XLAL err")
     c9Params 1 30 20 0 0 0 0 0 0 20 20 100 "NRSur7dq4" 4
     (by decide) (by decide) (by decide) (by decide) (by decide) (by decide)
     (by decide) (by decide) (by decide) (by decide) (by decide) (by decide)
     (by decide) (by decide),
   C9_amended_native_errors_propagate.2 (WErr.nativeFailure "XLAL err")
     (c2Params ++ [("f_final", PVal.num 0)]) "IMRPhenomXHM" (2, 2) [(2, -2)]
     30 20 0 0 100 20 0 1 0 20
     (by decide) (by decide) (by decide) (by decide) (by decide) (by decide)
     (by decide) (by decide) (by decide) (by decide) (by decide) (by decide)
     (by decide)⟩

/-- C10: for every parameter set read successfully by the generic packed
adapter, the external solver is invoked with a maximum multipole order of
5 when the parameter set has no `ell_max` key, and with the parameter's
value passed through unchanged when it does; the adapter's result is the
packed walk over that single solver call. -/
theorem C10_generic_adapter_ell_max :
    ∀ (solver : ChooseTDArgs → Except WErr (List PackedNode)) (params : Params)
      (cp dt m1 m2 s1x s1y s1z s2x s2y s2z fl fr dist : ℚ)
      (name : String) (apx : ℕ),
      params.get? "coa_phase" = some (PVal.num cp) →
      params.get? "delta_t" = some (PVal.num dt) →
      params.get? "mass1" = some (PVal.num m1) →
      params.get? "mass2" = some (PVal.num m2) →
      params.get? "spin1x" = some (PVal.num s1x) →
      params.get? "spin1y" = some (PVal.num s1y) →
      params.get? "spin1z" = some (PVal.num s1z) →
      params.get? "spin2x" = some (PVal.num s2x) →
      params.get? "spin2y" = some (PVal.num s2y) →
      params.get? "spin2z" = some (PVal.num s2z) →
      params.get? "f_lower" = some (PVal.num fl) →
      params.get? "f_ref" = some (PVal.num fr) →
      params.get? "distance" = some (PVal.num dist) →
      params.get? "approximant" = some (PVal.str name) →
      get_lalsimulation_approximant name = Except.ok apx →
      ((params.hasKey "ell_max" = false →
        get_lalsimulation_modes solver params =
          Except.map packWalk (solver
            ⟨cp, dt, m1 * MSUN_SI, m2 * MSUN_SI, s1x, s1y, s1z, s2x, s2y, s2z,
             fl, fr, dist * (10 ^ 6) * PC_SI, _check_lal_pars params,
             PVal.num 5, apx⟩))
      ∧ (∀ v : PVal, params.get? "ell_max" = some v →
        get_lalsimulation_modes solver params =
          Except.map packWalk (solver
            ⟨cp, dt, m1 * MSUN_SI, m2 * MSUN_SI, s1x, s1y, s1z, s2x, s2y, s2z,
             fl, fr, dist * (10 ^ 6) * PC_SI, _check_lal_pars params,
             v, apx⟩))) := by
  intro solver params cp dt m1 m2 s1x s1y s1z s2x s2y s2z fl fr dist name apx
    hcp hdt hm1 hm2 h1x h1y h1z h2x h2y h2z hfl hfr hdist hname happx
  constructor
  · intro hno
    have hnone : params.get? "ell_max" = none := by
      rw [Params.hasKey_eq_isSome] at hno
      exact Option.not_isSome_iff_eq_none.mp (by simp [hno])
    simp only [get_lalsimulation_modes, getNum, getStr, bind, Except.bind,
      hnone, hcp, hdt, hm1, hm2, h1x, h1y, h1z, h2x, h2y, h2z, hfl, hfr,
      hdist, hname, happx]
    exact except_bind_ok _ _
  · intro v hv
    simp only [get_lalsimulation_modes, getNum, getStr, bind, Except.bind,
      hv, hcp, hdt, hm1, hm2, h1x, h1y, h1z, h2x, h2y, h2z, hfl, hfr,
      hdist, hname, happx]
    exact except_bind_ok _ _

/-- A probe solver for the generic adapter. -/
def c10Solver : ChooseTDArgs → Except WErr (List PackedNode) :=
  fun _ => Except.error (WErr.nativeFailure "chooseTD invoked")

/-- The generic-adapter parameter set without an `ell_max` key. -/
def c10Params : Params := c8Params ++ [("coa_phase", PVal.num 0)]

/-- C10 witness: the theorem applied with and without an explicit
`ell_max`, showing the default 5 and the pass-through value in the
solver's argument record. -/
theorem C10_ell_max_witness :
    get_lalsimulation_modes c10Solver c10Params =
      Except.map packWalk (c10Solver
        ⟨0, 1, 30 * MSUN_SI, 20 * MSUN_SI, 0, 0, 0, 0, 0, 0,
         20, 20, 100 * (10 ^ 6) * PC_SI, _check_lal_pars c10Params,
         PVal.num 5, 13⟩)
  ∧ get_lalsimulation_modes c10Solver (c10Params ++ [("ell_max", PVal.num 4)]) =
      Except.map packWalk (c10Solver
        ⟨0, 1, 30 * MSUN_SI, 20 * MSUN_SI, 0, 0, 0, 0, 0, 0,
         20, 20, 100 * (10 ^ 6) * PC_SI,
         _check_lal_pars (c10Params ++ [("ell_max", PVal.num 4)]),
         PVal.num 4, 13⟩) :=
  ⟨(C10_generic_adapter_ell_max c10Solver c10Params
      0 1 30 20 0 0 0 0 0 0 20 20 100 "TaylorT1" 13
      (by decide) (by decide) (by decide) (by decide) (by decide) (by decide)
      (by decide) (by decide) (by decide) (by decide) (by decide) (by decide)
      (by decide) (by decide) (by decide)).1 (by decide),
   (C10_generic_adapter_ell_max c10Solver (c10Params ++ [("ell_max", PVal.num 4)])
      0 1 30 20 0 0 0 0 0 0 20 20 100 "TaylorT1" 13
      (by decide) (by decide) (by decide) (by decide) (by decide) (by decide)
      (by decide) (by decide) (by decide) (by decide) (by decide) (by decide)
      (by decide) (by decide) (by decide)).2 (PVal.num 4) (by decide)⟩
